import Mathlib

/-!
Verification of the Bluesky post reporter (bluesky_report.py, app.py,
resolve_handle.py).

The development shallowly embeds the program's routines:

* the cursor-based pagination loop of `fetch_user_posts`
  (bluesky_report.py lines 54-102, app.py lines 63-107);
* the handle normalization of `resolve_handle`
  (app.py lines 31-36, resolve_handle.py lines 52-62);
* the timestamp formatting and relative-time bucketing of
  `extract_post_summary` / `_get_relative_time`
  (bluesky_report.py lines 123-130, app.py lines 128-183);
* the post-URL construction of `extract_post_summary`
  (bluesky_report.py lines 132-136, app.py lines 139-142);
* the CSV and JSON report formatting
  (bluesky_report.py lines 178-205).

Python strings are embedded as `List Char`; Python ints as `Int`
(as `Nat` where the source value is manifestly non-negative).
-/

namespace Bluesky

/-!
Pagination (`fetch_user_posts`).

The Python loop keeps requesting pages while `len(posts) < limit`,
asking for `min(100, limit - len(posts))` entries each time, and stops
when a page comes back empty, when the response carries no cursor, or
when a request raises `requests.exceptions.RequestException`.

The upstream feed is simulated as a list `feed` of opaque entries and a
positional cursor: a request at position `pos` with per-page limit `k`
is answered with `(feed.drop pos).take k`, honouring the requested
per-page limit.  The `lazyCursor` flag chooses between the two
cursor-issuing behaviours the upstream may exhibit: `false` omits the
cursor exactly when the feed is exhausted, `true` returns a cursor
after every non-empty page (forcing one extra terminating request).
`errAt = some e` makes the request with index `e` (0-based) raise; the
`except` branch of the source swallows the error and breaks the loop.

The loop cannot be written by structural recursion, so it takes an
explicit `fuel` argument; `fetch_user_posts` passes `limit.toNat + 1`
fuel, and the theorems below show the loop always returns through one
of the source's exit points before the fuel runs out (the `fuel = 0`
branch is unreachable under the hypotheses of `fetchGo_spec`).

The result pairs the accumulated entries with the number of HTTP
requests issued.
-/

/-- One state of the `while len(posts) < limit` loop of
`fetch_user_posts`: `posts` is the accumulator, `cursor` the pagination
cursor (`none` initially, as in the source), `reqIdx` counts the
requests issued so far (used only to locate the simulated request
error). -/
def fetchGo {α : Type} (feed : List α) (lazyCursor : Bool) (limit : Int)
    (errAt : Option Nat) :
    Nat → List α → Option Nat → Nat → List α × Nat
  | 0, posts, _, _ => (posts, 0)
  | fuel + 1, posts, cursor, reqIdx =>
    if ((posts.length : Int)) < limit then
      if errAt = some reqIdx then
        (posts, 1)
      else
        let pos := cursor.getD 0
        let reqLimit := min 100 (limit - (posts.length : Int))
        let page := (feed.drop pos).take reqLimit.toNat
        if page.isEmpty then
          (posts, 1)
        else
          let newPosts := posts ++ page
          let newPos := pos + page.length
          let newCursor : Option Nat :=
            if lazyCursor then some newPos
            else if newPos < feed.length then some newPos else none
          match newCursor with
          | none => (newPosts, 1)
          | some c =>
            let rest := fetchGo feed lazyCursor limit errAt fuel newPosts (some c) (reqIdx + 1)
            (rest.1, rest.2 + 1)
    else (posts, 0)

/-- `fetch_user_posts(did, limit)` against the simulated upstream:
start with an empty accumulator, no cursor, and request index 0. -/
def fetch_user_posts {α : Type} (feed : List α) (lazyCursor : Bool)
    (limit : Int) (errAt : Option Nat) : List α × Nat :=
  fetchGo feed lazyCursor limit errAt (limit.toNat + 1) [] none 0

/-- Number of pages of size 100 needed to deliver `n` entries
(the ceiling of `n / 100`). -/
def pagesNeeded (n : Nat) : Nat := (n + 99) / 100

/-!
Handle normalization.

resolve_handle.py lines 55-60 (and app.py lines 33-36, after a
whitespace `strip()`): remove one leading `"@"`, then append
`".bsky.social"` when the string contains no `"."`.
-/

/-- The normalization applied to the user-supplied handle before the
identity lookup: `handle[1:]` when it starts with `"@"`, then
`handle + ".bsky.social"` when `"." not in handle`. -/
def normalize_handle (h : List Char) : List Char :=
  let h1 := if h.head? = some '@' then h.tail else h
  if '.' ∈ h1 then h1 else h1 ++ ".bsky.social".toList

/-- Python's `str.strip()` (app.py line 32): drop whitespace from both
ends. -/
def pyStripChars (s : List Char) : List Char :=
  ((s.dropWhile Char.isWhitespace).reverse.dropWhile Char.isWhitespace).reverse

/-- The full clean-up of `BlueskyService.resolve_handle` (app.py lines
31-36): `strip()` then the normalization above. -/
def clean_handle (s : List Char) : List Char :=
  normalize_handle (pyStripChars s)

/-!
Timestamp handling of `extract_post_summary`.

The source calls `datetime.fromisoformat(created_at.replace('Z', '+00:00'))`
and formats with `strftime("%Y-%m-%d %H:%M:%S UTC")`; on any parse
failure it falls back to the raw string (bluesky_report.py lines
126-130; app.py lines 131-137 additionally compute a relative date).
-/

/-- A parsed naive-or-offset datetime value, with the fields `strftime`
uses (the offset, kept by `fromisoformat`, is ignored by the format
strings of the source, so it is validated but not stored). -/
structure PyDateTime where
  year : Nat
  month : Nat
  day : Nat
  hour : Nat
  minute : Nat
  second : Nat
deriving DecidableEq

/-- Python's `created_at.replace('Z', '+00:00')`: every occurrence of
`'Z'` becomes the 6-character UTC offset. -/
def replaceZ : List Char → List Char
  | [] => []
  | c :: t =>
    if c = 'Z' then '+' :: '0' :: '0' :: ':' :: '0' :: '0' :: replaceZ t
    else c :: replaceZ t

/-- Value of two decimal digit characters, when both are digits. -/
def num2 (a b : Char) : Option Nat :=
  if a.isDigit ∧ b.isDigit then
    some (10 * (a.toNat - 48) + (b.toNat - 48))
  else none

/-- Value of four decimal digit characters, when all are digits. -/
def num4 (a b c d : Char) : Option Nat :=
  match num2 a b, num2 c d with
  | some hi, some lo => some (100 * hi + lo)
  | _, _ => none

/-- Checks the tail after `YYYY-MM-DDTHH:MM:SS`: empty, or a
`±HH:MM` offset within a day. -/
def validOffset : List Char → Bool
  | [] => true
  | [sg, o1, o2, cl, o3, o4] =>
    (sg == '+' || sg == '-') && cl == ':' &&
      o1.isDigit && o2.isDigit && o3.isDigit && o4.isDigit &&
      decide (10 * (o1.toNat - 48) + (o2.toNat - 48) < 24) &&
      decide (10 * (o3.toNat - 48) + (o4.toNat - 48) < 60)
  | _ => false

/-- Days in a month of the proleptic Gregorian calendar. -/
def daysInMonth (y m : Nat) : Nat :=
  if m = 2 then
    if (y % 4 = 0 ∧ y % 100 ≠ 0) ∨ y % 400 = 0 then 29 else 28
  else if m = 4 ∨ m = 6 ∨ m = 9 ∨ m = 11 then 30
  else 31

/-- Modelled from the spec: the standard-library parser
`datetime.fromisoformat`, which is not part of this repository, is
embedded restricted to the `YYYY-MM-DDTHH:MM:SS[±HH:MM]` subset that
the spec describes ("ISO-8601, allowing a trailing Z as UTC
designator", after `replaceZ` has turned the `Z` into `+00:00`);
all field-range checks of the library are kept. -/
def parseISO (s : List Char) : Option PyDateTime :=
  match s with
  | y1 :: y2 :: y3 :: y4 :: '-' :: mo1 :: mo2 :: '-' :: dd1 :: dd2 :: 'T' ::
      hh1 :: hh2 :: ':' :: mi1 :: mi2 :: ':' :: ss1 :: ss2 :: rest =>
    if validOffset rest then
      match num4 y1 y2 y3 y4, num2 mo1 mo2, num2 dd1 dd2,
          num2 hh1 hh2, num2 mi1 mi2, num2 ss1 ss2 with
      | some y, some mo, some dd, some hh, some mi, some ss =>
        if 1 ≤ y ∧ 1 ≤ mo ∧ mo ≤ 12 ∧ 1 ≤ dd ∧ dd ≤ daysInMonth y mo ∧
            hh ≤ 23 ∧ mi ≤ 59 ∧ ss ≤ 59 then
          some ⟨y, mo, dd, hh, mi, ss⟩
        else none
      | _, _, _, _, _, _ => none
    else none
  | _ => none

/-- Decimal digits of `n`, most significant first (Python `str(n)` for
a natural number). -/
def natChars (n : Nat) : List Char := Nat.toDigits 10 n

/-- Zero-padded two-digit field (`%m`, `%d`, `%H`, `%M`, `%S`). -/
def pad2 (n : Nat) : List Char :=
  if n < 10 then '0' :: natChars n else natChars n

/-- Zero-padded four-digit year (`%Y` as printed by CPython). -/
def pad4 (n : Nat) : List Char :=
  List.replicate (4 - (natChars n).length) '0' ++ natChars n

/-- `dt.strftime("%Y-%m-%d %H:%M:%S UTC")` (bluesky_report.py line 128,
app.py line 133). -/
def strftimeReport (dt : PyDateTime) : List Char :=
  pad4 dt.year ++ ('-' :: pad2 dt.month) ++ ('-' :: pad2 dt.day) ++
    (' ' :: pad2 dt.hour) ++ (':' :: pad2 dt.minute) ++ (':' :: pad2 dt.second) ++
    " UTC".toList

/-- English month abbreviations of `%b` (months are validated to lie in
1..12 by the parser). -/
def monthAbbrev : Nat → List Char
  | 1 => "Jan".toList
  | 2 => "Feb".toList
  | 3 => "Mar".toList
  | 4 => "Apr".toList
  | 5 => "May".toList
  | 6 => "Jun".toList
  | 7 => "Jul".toList
  | 8 => "Aug".toList
  | 9 => "Sep".toList
  | 10 => "Oct".toList
  | 11 => "Nov".toList
  | 12 => "Dec".toList
  | _ => []

/-- `dt.strftime("%b %d, %Y")` (app.py line 183). -/
def strftimeAbs (dt : PyDateTime) : List Char :=
  monthAbbrev dt.month ++ (' ' :: pad2 dt.day) ++ (',' :: ' ' :: pad4 dt.year)

/-- `BlueskyService._get_relative_time` (app.py lines 164-183).  The
elapsed difference `now - dt` is passed as a number of `seconds`
(an integer: the claims only concern whole-second differences, and
Python's `int(seconds / x)` agrees with truncating division there);
`dt` itself is still needed for the final absolute-format bucket. -/
def get_relative_time (dt : PyDateTime) (seconds : Int) : List Char :=
  if seconds < 60 then "just now".toList
  else if seconds < 3600 then
    let minutes := (seconds / 60).toNat
    if minutes > 1 then natChars minutes ++ "m ago".toList else "1m ago".toList
  else if seconds < 86400 then
    let hours := (seconds / 3600).toNat
    if hours > 1 then natChars hours ++ "h ago".toList else "1h ago".toList
  else if seconds < 604800 then
    let days := (seconds / 86400).toNat
    if days > 1 then natChars days ++ "d ago".toList else "1d ago".toList
  else strftimeAbs dt

/-- The `(formatted_date, relative_date)` computation of
`extract_post_summary` (app.py lines 128-137): on a successful parse
both fields come from the datetime, on failure both fall back to the
raw `created_at` string.  `elapsed` is the `now - dt` difference used
by the relative field. -/
def post_date_pair (created_at : List Char) (elapsed : Int) : List Char × List Char :=
  match parseISO (replaceZ created_at) with
  | some dt => (strftimeReport dt, get_relative_time dt elapsed)
  | none => (created_at, created_at)

/-!
Post-URL construction of `extract_post_summary`.
-/

/-- `uri.split('/')[-1] if uri else ""` (bluesky_report.py line 135,
app.py line 141). -/
def post_id_of_uri (uri : List Char) : List Char :=
  if uri.isEmpty then [] else (uri.splitOn '/').getLastD []

/-- The CLI variant (bluesky_report.py line 136): the URL is built only
when the post id is non-empty and the handle is not the `"Unknown"`
placeholder returned by a failed `resolve_handle`. -/
def post_url_report (handle uri : List Char) : List Char :=
  let pid := post_id_of_uri uri
  if ¬ pid.isEmpty ∧ handle ≠ "Unknown".toList then
    "https://bsky.app/profile/".toList ++ handle ++ ("/post/".toList ++ pid)
  else []

/-- The web variant (app.py line 142): the URL is built only when the
post id and the handle are both non-empty (Python truthiness of the
handle string). -/
def post_url_app (handle uri : List Char) : List Char :=
  let pid := post_id_of_uri uri
  if ¬ pid.isEmpty ∧ ¬ handle.isEmpty then
    "https://bsky.app/profile/".toList ++ handle ++ ("/post/".toList ++ pid)
  else []

/-!
Report formatting (bluesky_report.py lines 178-205).

A summary dictionary produced by the CLI `extract_post_summary`
(bluesky_report.py lines 144-154) has exactly these nine fields.
-/

/-- One post summary as built by bluesky_report.py `extract_post_summary`. -/
structure PostSummary where
  handle : List Char
  post_date : List Char
  post_url : List Char
  first_line : List Char
  likes : Nat
  reposts : Nat
  replies : Nat
  quotes : Nat
  uri : List Char

/-- One CSV field under the `csv` module's default QUOTE_MINIMAL rule:
quoted (with doubled inner quotes) exactly when it contains a comma, a
quote, or a line-terminator character. -/
def csvField (s : List Char) : List Char :=
  if s.any (fun c => c == ',' || c == '"' || c == '\n' || c == '\r') then
    '"' :: ((s.map fun c => if c == '"' then ['"', '"'] else [c]).flatten ++ ['"'])
  else s

/-- One CSV record: comma-joined fields plus the `csv` module's default
`\r\n` line terminator. -/
def csvRow (fields : List (List Char)) : List Char :=
  List.intercalate [','] fields ++ ['\r', '\n']

/-- The fixed `fieldnames` list of `_generate_csv`
(bluesky_report.py line 200). -/
def csvFieldnames : List (List Char) :=
  ["handle".toList, "post_date".toList, "post_url".toList, "first_line".toList,
    "likes".toList, "reposts".toList, "replies".toList, "quotes".toList, "uri".toList]

/-- The `DictWriter` row for one summary: the nine fields in
`fieldnames` order, counts rendered in decimal. -/
def summaryRow (s : PostSummary) : List Char :=
  csvRow [csvField s.handle, csvField s.post_date, csvField s.post_url,
    csvField s.first_line, csvField (natChars s.likes), csvField (natChars s.reposts),
    csvField (natChars s.replies), csvField (natChars s.quotes), csvField s.uri]

/-- `BlueskyReporter._generate_csv` (bluesky_report.py lines 191-205):
the empty string for an empty summary list, otherwise a header row
followed by one row per summary. -/
def generate_csv (summaries : List PostSummary) : List Char :=
  if summaries.isEmpty then []
  else csvRow (csvFieldnames.map csvField) ++ (summaries.map summaryRow).flatten

/-- JSON values, as far as the report object needs them. -/
inductive JValue where
  | str : List Char → JValue
  | num : Nat → JValue
  | arr : List JValue → JValue
  | obj : List (List Char × JValue) → JValue

/-- The JSON object for one summary (the dict of
bluesky_report.py lines 144-154). -/
def summaryJson (s : PostSummary) : JValue :=
  .obj [("handle".toList, .str s.handle), ("post_date".toList, .str s.post_date),
    ("post_url".toList, .str s.post_url), ("first_line".toList, .str s.first_line),
    ("likes".toList, .num s.likes), ("reposts".toList, .num s.reposts),
    ("replies".toList, .num s.replies), ("quotes".toList, .num s.quotes),
    ("uri".toList, .str s.uri)]

/-- The key/value pairs of the JSON report object passed to
`json.dumps` by `generate_report` (bluesky_report.py lines 179-185), in
source order. -/
def report_fields (did handle generated_at : List Char)
    (summaries : List PostSummary) : List (List Char × JValue) :=
  [("did".toList, .str did), ("handle".toList, .str handle),
    ("post_count".toList, .num summaries.length),
    ("generated_at".toList, .str generated_at),
    ("posts".toList, .arr (summaries.map summaryJson))]

/-!
Theorems.
-/

/-- Exact characterization of the error-free pagination loop, by
induction on the fuel.  From a state where the accumulator holds the
first `p` feed entries and the cursor points at `p`, the loop returns
the first `min limit.toNat feed.length` entries, and the number of
requests it issues is pinned down by the same case split (one
terminating request when the feed is already exhausted, an extra
terminating request in lazy-cursor mode when the feed runs out before
the limit). -/
theorem fetchGo_spec {α : Type} (feed : List α) (lazyCursor : Bool) (limit : Int) :
    ∀ (fuel : Nat) (p : Nat) (c : Option Nat) (r : Nat),
      p ≤ feed.length → c.getD 0 = p → limit.toNat - p < fuel →
      fetchGo feed lazyCursor limit none fuel (feed.take p) c r =
        (if limit ≤ (p : Int) then (feed.take p, 0)
         else if feed.length ≤ p then (feed.take p, 1)
         else (feed.take (min limit.toNat feed.length),
           pagesNeeded (min limit.toNat feed.length - p) +
             (if lazyCursor = true ∧ (feed.length : Int) < limit then 1 else 0))) := by
  intro fuel
  induction fuel with
  | zero =>
    intro p c r hpN hc hf
    omega
  | succ fuel ih =>
    intro p c r hpN hc hf
    have hlen : (feed.take p).length = p := by
      rw [List.length_take]; omega
    by_cases hg : (p : Int) < limit
    · -- loop guard holds
      simp only [fetchGo, hlen, hc]
      rw [if_pos hg]
      rw [if_neg (by omega : ¬ limit ≤ (p : Int))]
      rw [if_neg (by simp : ¬ (none : Option Nat) = some r)]
      by_cases hNp : feed.length ≤ p
      · -- feed exhausted: empty page
        rw [if_pos hNp]
        rw [List.drop_eq_nil_of_le hNp]
        simp only [List.take_nil, List.isEmpty_nil, if_true]
      · -- p < feed.length : non-empty page
        rw [if_neg hNp]
        set k := (min (100 : Int) (limit - (p : Int))).toNat with hk
        set page := (feed.drop p).take k with hpageDef
        have hplen : page.length = min k (feed.length - p) := by
          rw [hpageDef, List.length_take, List.length_drop]
        have hk1 : 1 ≤ k := by omega
        have hk100 : k ≤ 100 := by omega
        have hkl : k ≤ limit.toNat - p := by omega
        have hpagepos : 0 < page.length := by omega
        have hpne : ¬ page.isEmpty = true := by
          rw [List.isEmpty_iff]
          exact List.length_pos.mp hpagepos
        rw [if_neg hpne]
        have htake : feed.take p ++ page = feed.take (p + page.length) := by
          rw [List.take_add]
          congr 1
          rcases Nat.le_total k (feed.length - p) with hle | hle
          · have hpk : page.length = k := by omega
            rw [hpk, hpageDef]
          · have hpk : page.length = feed.length - p := by omega
            rw [hpk, hpageDef]
            rw [List.take_of_length_le (by rw [List.length_drop]; omega),
              List.take_of_length_le (by rw [List.length_drop])]
        cases lazyCursor with
        | true =>
          rw [if_pos rfl]
          simp only []
          rw [htake,
            ih (p + page.length) (some (p + page.length)) (r + 1) (by omega) rfl (by omega)]
          simp only [eq_self_iff_true, true_and]
          by_cases h1 : limit ≤ ((p + page.length : Nat) : Int)
          · rw [if_pos h1]
            have hM : p + page.length = min limit.toNat feed.length := by omega
            rw [if_neg (by omega : ¬ (feed.length : Int) < limit), ← hM]
            simp only [Prod.mk.injEq, pagesNeeded]
            exact ⟨trivial, by omega⟩
          · rw [if_neg h1]
            by_cases h2 : feed.length ≤ p + page.length
            · rw [if_pos h2]
              have hM : p + page.length = min limit.toNat feed.length := by omega
              rw [if_pos (by omega : (feed.length : Int) < limit), ← hM]
              simp only [Prod.mk.injEq, pagesNeeded]
              exact ⟨trivial, by omega⟩
            · rw [if_neg h2]
              simp only [Prod.mk.injEq, pagesNeeded]
              refine ⟨trivial, ?_⟩
              set e := (if (feed.length : Int) < limit then 1 else 0) with he
              omega
        | false =>
          rw [if_neg Bool.false_ne_true]
          simp only [Bool.false_eq_true, false_and, if_false]
          by_cases hcur : p + page.length < feed.length
          · rw [if_pos hcur]
            simp only []
            rw [htake,
              ih (p + page.length) (some (p + page.length)) (r + 1) (by omega) rfl (by omega)]
            simp only [Bool.false_eq_true, false_and, if_false]
            by_cases h1 : limit ≤ ((p + page.length : Nat) : Int)
            · rw [if_pos h1]
              have hM : p + page.length = min limit.toNat feed.length := by omega
              rw [← hM]
              simp only [Prod.mk.injEq, pagesNeeded]
              exact ⟨trivial, by omega⟩
            · rw [if_neg h1]
              rw [if_neg (by omega : ¬ feed.length ≤ p + page.length)]
              simp only [Prod.mk.injEq, pagesNeeded]
              exact ⟨trivial, by omega⟩
          · rw [if_neg hcur]
            simp only []
            rw [htake]
            have hM : p + page.length = min limit.toNat feed.length := by omega
            rw [← hM]
            simp only [Prod.mk.injEq, pagesNeeded]
            exact ⟨trivial, by omega⟩
    · -- loop guard fails
      simp only [fetchGo, hlen]
      rw [if_neg hg, if_pos (by omega : limit ≤ (p : Int))]

/-- C1: for any limit of at least 1 and any simulated feed (any size,
served in pages of at most 100 honouring the requested per-page limit,
under either cursor-issuing behaviour), `fetch_user_posts` returns
exactly the first `min(limit, feed.length)` entries in upstream order,
its result never exceeds the limit, and it issues between
`ceil(min(limit, feed.length) / 100)` and that plus one (terminating)
requests; in particular the loop terminates. -/
theorem fetch_user_posts_pagination {α : Type} (feed : List α) (lazyCursor : Bool)
    (limit : Int) (hL : 1 ≤ limit) :
    (fetch_user_posts feed lazyCursor limit none).1 =
        feed.take (min limit.toNat feed.length) ∧
      (fetch_user_posts feed lazyCursor limit none).1.length ≤ limit.toNat ∧
      pagesNeeded (min limit.toNat feed.length) ≤ (fetch_user_posts feed lazyCursor limit none).2 ∧
      (fetch_user_posts feed lazyCursor limit none).2 ≤ pagesNeeded (min limit.toNat feed.length) + 1 := by
  have h := fetchGo_spec feed lazyCursor limit (limit.toNat + 1) 0 none 0
    (Nat.zero_le _) rfl (by omega)
  rw [List.take_zero] at h
  unfold fetch_user_posts
  rw [h]
  rw [if_neg (by omega : ¬ limit ≤ ((0 : Nat) : Int))]
  by_cases hN : feed.length ≤ 0
  · rw [if_pos hN]
    have hN0 : feed.length = 0 := by omega
    refine ⟨?_, ?_, ?_, ?_⟩
    · simp [hN0]
    · simp
    · simp only [pagesNeeded]; omega
    · simp only [pagesNeeded]; omega
  · rw [if_neg hN]
    refine ⟨rfl, ?_, ?_, ?_⟩
    · rw [List.length_take]; omega
    · simp only [Nat.sub_zero]
      omega
    · simp only [Nat.sub_zero]
      by_cases hx : lazyCursor = true ∧ (feed.length : Int) < limit
      · rw [if_pos hx]
      · rw [if_neg hx]; omega

/-- C1 witness: a feed of 3 entries with limit 2 yields the first two
entries in order, within the request bounds. -/
theorem fetch_user_posts_pagination_witness :
    (fetch_user_posts ([1, 2, 3] : List Nat) false 2 none).1 = [1, 2] ∧
      (fetch_user_posts ([1, 2, 3] : List Nat) false 2 none).1.length ≤ 2 ∧
      1 ≤ (fetch_user_posts ([1, 2, 3] : List Nat) false 2 none).2 ∧
      (fetch_user_posts ([1, 2, 3] : List Nat) false 2 none).2 ≤ 2 :=
  fetch_user_posts_pagination ([1, 2, 3] : List Nat) false 2 (by decide)

/-- Exact characterization of the loop with a request error injected at
request index `e`: starting from position `p` at request index `r`, the
returned entries are the first `min (p + 100 * (e - r))
(min limit.toNat feed.length)` feed entries — the pages fetched before
the error, capped by the limit and the feed. -/
theorem fetchGoE_spec {α : Type} (feed : List α) (lazyCursor : Bool) (limit : Int) (e : Nat) :
    ∀ (fuel : Nat) (p : Nat) (c : Option Nat) (r : Nat),
      p ≤ feed.length → c.getD 0 = p → r ≤ e → limit.toNat - p < fuel →
      (fetchGo feed lazyCursor limit (some e) fuel (feed.take p) c r).1 =
        feed.take (if limit ≤ (p : Int) then p
          else min (p + 100 * (e - r)) (min limit.toNat feed.length)) := by
  intro fuel
  induction fuel with
  | zero =>
    intro p c r hpN hc hre hf
    omega
  | succ fuel ih =>
    intro p c r hpN hc hre hf
    have hlen : (feed.take p).length = p := by
      rw [List.length_take]; omega
    by_cases hg : (p : Int) < limit
    · -- loop guard holds
      simp only [fetchGo, hlen, hc]
      rw [if_pos hg]
      rw [if_neg (by omega : ¬ limit ≤ (p : Int))]
      by_cases her : r = e
      · rw [if_pos (by rw [her] : (some e : Option Nat) = some r)]
        simp only []
        congr 1
        omega
      · rw [if_neg (by simp only [Option.some.injEq]; omega :
          ¬ (some e : Option Nat) = some r)]
        have hre' : r < e := by omega
        by_cases hNp : feed.length ≤ p
        · -- feed exhausted: empty page
          rw [List.drop_eq_nil_of_le hNp]
          simp only [List.take_nil, List.isEmpty_nil, if_true]
          congr 1
          omega
        · -- p < feed.length : non-empty page
          set k := (min (100 : Int) (limit - (p : Int))).toNat with hk
          set page := (feed.drop p).take k with hpageDef
          have hplen : page.length = min k (feed.length - p) := by
            rw [hpageDef, List.length_take, List.length_drop]
          have hk1 : 1 ≤ k := by omega
          have hk100 : k ≤ 100 := by omega
          have hkl : k ≤ limit.toNat - p := by omega
          have hpagepos : 0 < page.length := by omega
          have hpne : ¬ page.isEmpty = true := by
            rw [List.isEmpty_iff]
            exact List.length_pos.mp hpagepos
          rw [if_neg hpne]
          have htake : feed.take p ++ page = feed.take (p + page.length) := by
            rw [List.take_add]
            congr 1
            rcases Nat.le_total k (feed.length - p) with hle | hle
            · have hpk : page.length = k := by omega
              rw [hpk, hpageDef]
            · have hpk : page.length = feed.length - p := by omega
              rw [hpk, hpageDef]
              rw [List.take_of_length_le (by rw [List.length_drop]; omega),
                List.take_of_length_le (by rw [List.length_drop])]
          cases lazyCursor with
          | true =>
            rw [if_pos rfl]
            simp only []
            rw [htake,
              ih (p + page.length) (some (p + page.length)) (r + 1)
                (by omega) rfl (by omega) (by omega)]
            by_cases h1 : limit ≤ ((p + page.length : Nat) : Int)
            · rw [if_pos h1]
              congr 1
              omega
            · rw [if_neg h1]
              congr 1
              omega
          | false =>
            rw [if_neg Bool.false_ne_true]
            by_cases hcur : p + page.length < feed.length
            · rw [if_pos hcur]
              simp only []
              rw [htake,
                ih (p + page.length) (some (p + page.length)) (r + 1)
                  (by omega) rfl (by omega) (by omega)]
              by_cases h1 : limit ≤ ((p + page.length : Nat) : Int)
              · rw [if_pos h1]
                congr 1
                omega
              · rw [if_neg h1]
                congr 1
                omega
            · rw [if_neg hcur]
              simp only []
              rw [htake]
              congr 1
              omega
    · -- loop guard fails
      simp only [fetchGo, hlen]
      rw [if_neg hg, if_pos (by omega : limit ≤ (p : Int))]

/-- C2: when the request with index `e` raises a request error, the
loop stops there and `fetch_user_posts` returns exactly the entries
accumulated from the `e` pages fetched before the error (`100 * e`
entries, capped by the limit and by the feed), in upstream order,
without raising to its caller: the embedded loop is a total function
into a plain list, mirroring the `except` branch that swallows the
error and breaks. -/
theorem fetch_partial_on_error {α : Type} (feed : List α) (lazyCursor : Bool)
    (limit : Int) (e : Nat) :
    (fetch_user_posts feed lazyCursor limit (some e)).1 =
      feed.take (min (100 * e) (min limit.toNat feed.length)) := by
  have h := fetchGoE_spec feed lazyCursor limit e (limit.toNat + 1) 0 none 0
    (Nat.zero_le _) rfl (Nat.zero_le _) (by omega)
  rw [List.take_zero] at h
  unfold fetch_user_posts
  rw [h]
  by_cases h0 : limit ≤ ((0 : Nat) : Int)
  · rw [if_pos h0]
    congr 1
    omega
  · rw [if_neg h0]
    congr 1
    omega

/-- C10: with a non-positive limit the loop guard `len(posts) < limit`
fails immediately, so `fetch_user_posts` returns the empty list and
issues no HTTP request at all. -/
theorem fetch_no_request_on_nonpositive_limit {α : Type} (feed : List α)
    (lazyCursor : Bool) (errAt : Option Nat) (limit : Int) (h : limit ≤ 0) :
    fetch_user_posts feed lazyCursor limit errAt = ([], 0) := by
  unfold fetch_user_posts fetchGo
  rw [if_neg]
  simp only [List.length_nil, Nat.cast_zero]
  omega

/-- C10 witness: a concrete negative limit with a non-empty simulated
feed yields no entries and zero requests. -/
theorem fetch_no_request_on_nonpositive_limit_witness :
    (-1 : Int) ≤ 0 ∧
      fetch_user_posts ([1, 2, 3] : List Nat) false (-1) none = ([], 0) :=
  ⟨by decide,
    fetch_no_request_on_nonpositive_limit ([1, 2, 3] : List Nat) false none (-1) (by decide)⟩

/-- C3 counterexample: the DID `"did:plc:abc"` (no dot anywhere, like
every `did:plc:` identifier) is not passed through unchanged by the
normalization — the code has no DID check, so `.bsky.social` gets
appended. -/
theorem did_plc_not_passed_through :
    normalize_handle ("did:plc:abc".toList) ≠ "did:plc:abc".toList := by decide

/-- C3 amended: a string starting with `"did:"` undergoes no
`"@"`-stripping, and is passed through unchanged precisely when it
contains a `"."`; a dotless DID has `".bsky.social"` appended like any
other dotless handle. -/
theorem did_normalization (h : List Char)
    (hd : ∃ t, h = 'd' :: 'i' :: 'd' :: ':' :: t) :
    normalize_handle h = if '.' ∈ h then h else h ++ ".bsky.social".toList := by
  obtain ⟨t, rfl⟩ := hd
  rfl

/-- C3 witness: a DID containing a dot is passed through unchanged. -/
theorem did_normalization_witness :
    normalize_handle ("did:web:example.com".toList) = "did:web:example.com".toList := by
  rw [did_normalization ("did:web:example.com".toList) ⟨"web:example.com".toList, by decide⟩]
  decide

/-- C4: normalization strips one leading `"@"` (and only a leading
one), then appends `".bsky.social"` precisely when the remaining string
contains no `"."`; in particular `"alice"` becomes
`"alice.bsky.social"` and `"@bob.example.com"` becomes
`"bob.example.com"`, in both the helper-script variant
(`normalize_handle`) and the web variant that first strips whitespace
(`clean_handle`). -/
theorem handle_normalization (h : List Char) :
    (normalize_handle ('@' :: h) =
        (if '.' ∈ h then h else h ++ ".bsky.social".toList)) ∧
      (h.head? ≠ some '@' →
        normalize_handle h = (if '.' ∈ h then h else h ++ ".bsky.social".toList)) ∧
      normalize_handle ("alice".toList) = "alice.bsky.social".toList ∧
      normalize_handle ('@' :: "bob.example.com".toList) = "bob.example.com".toList ∧
      clean_handle ("alice".toList) = "alice.bsky.social".toList ∧
      clean_handle ('@' :: "bob.example.com".toList) = "bob.example.com".toList := by
  refine ⟨rfl, ?_, by decide, by decide, by decide, by decide⟩
  intro hh
  unfold normalize_handle
  rw [if_neg hh]

/-- C4 witness: both spec examples, with the no-leading-at hypothesis
discharged on the second. -/
theorem handle_normalization_witness :
    normalize_handle ('@' :: "bob.example.com".toList) = "bob.example.com".toList ∧
      normalize_handle ("alice".toList) = "alice.bsky.social".toList := by
  constructor
  · rw [(handle_normalization ("bob.example.com".toList)).1]
    decide
  · have h := (handle_normalization ("alice".toList)).2.1 (by decide)
    rw [h]
    decide

/-- C5: a `createdAt` value the ISO parser accepts (after the `Z` to
`+00:00` replacement) is formatted as `YYYY-MM-DD HH:MM:SS UTC`, the
spec's example included; when parsing fails, both the absolute and the
relative date fields fall back to the raw string (and the embedding is
a total function — nothing is raised). -/
theorem date_formatting (s : List Char) (elapsed : Int) :
    (∀ dt, parseISO (replaceZ s) = some dt →
        post_date_pair s elapsed = (strftimeReport dt, get_relative_time dt elapsed)) ∧
      (parseISO (replaceZ s) = none → post_date_pair s elapsed = (s, s)) ∧
      (post_date_pair ("2024-01-15T10:30:00Z".toList) elapsed).1 =
        "2024-01-15 10:30:00 UTC".toList := by
  refine ⟨?_, ?_, ?_⟩
  · intro dt hdt
    unfold post_date_pair
    rw [hdt]
  · intro hn
    unfold post_date_pair
    rw [hn]
  · have hp : parseISO (replaceZ ("2024-01-15T10:30:00Z".toList)) =
        some ⟨2024, 1, 15, 10, 30, 0⟩ := by decide
    unfold post_date_pair
    rw [hp]
    simp only []
    decide

/-- C5 witness: a non-parsing string falls back to itself in both
fields, and the spec's example formats as stated. -/
theorem date_formatting_witness :
    post_date_pair ("not-a-date".toList) 0 = ("not-a-date".toList, "not-a-date".toList) ∧
      (post_date_pair ("2024-01-15T10:30:00Z".toList) 0).1 =
        "2024-01-15 10:30:00 UTC".toList := by
  constructor
  · exact (date_formatting ("not-a-date".toList) 0).2.1 (by decide)
  · exact (date_formatting ("x".toList) 0).2.2

/-- C6: the relative-time string is bucketed by the elapsed seconds
exactly as specified — `just now` under 60 s, `{n}m ago` under 1 h,
`{n}h ago` under 1 d, `{n}d ago` under 7 d, else the absolute
`Mon DD, YYYY` format — with 45 minutes giving `45m ago` and exactly
one minute giving `1m ago` (the source's `minutes > 1` branch and its
`else` agree on `1m ago`, so the singular form is never doubled or
pluralized). -/
theorem relative_time_buckets (dt : PyDateTime) (s : Int) :
    (s < 60 → get_relative_time dt s = "just now".toList) ∧
      (60 ≤ s → s < 3600 →
        get_relative_time dt s = natChars (s / 60).toNat ++ "m ago".toList) ∧
      (3600 ≤ s → s < 86400 →
        get_relative_time dt s = natChars (s / 3600).toNat ++ "h ago".toList) ∧
      (86400 ≤ s → s < 604800 →
        get_relative_time dt s = natChars (s / 86400).toNat ++ "d ago".toList) ∧
      (604800 ≤ s → get_relative_time dt s = strftimeAbs dt) ∧
      get_relative_time dt 2700 = "45m ago".toList ∧
      get_relative_time dt 60 = "1m ago".toList := by
  refine ⟨?_, ?_, ?_, ?_, ?_, ?_, ?_⟩
  · intro h
    unfold get_relative_time
    rw [if_pos h]
  · intro h1 h2
    unfold get_relative_time
    rw [if_neg (by omega : ¬ s < 60), if_pos h2]
    simp only []
    by_cases hm : (s / 60).toNat > 1
    · rw [if_pos hm]
    · rw [if_neg hm]
      have hone : (s / 60).toNat = 1 := by omega
      rw [hone]
      decide
  · intro h1 h2
    unfold get_relative_time
    rw [if_neg (by omega : ¬ s < 60), if_neg (by omega : ¬ s < 3600), if_pos h2]
    simp only []
    by_cases hm : (s / 3600).toNat > 1
    · rw [if_pos hm]
    · rw [if_neg hm]
      have hone : (s / 3600).toNat = 1 := by omega
      rw [hone]
      decide
  · intro h1 h2
    unfold get_relative_time
    rw [if_neg (by omega : ¬ s < 60), if_neg (by omega : ¬ s < 3600),
      if_neg (by omega : ¬ s < 86400), if_pos h2]
    simp only []
    by_cases hm : (s / 86400).toNat > 1
    · rw [if_pos hm]
    · rw [if_neg hm]
      have hone : (s / 86400).toNat = 1 := by omega
      rw [hone]
      decide
  · intro h
    unfold get_relative_time
    rw [if_neg (by omega : ¬ s < 60), if_neg (by omega : ¬ s < 3600),
      if_neg (by omega : ¬ s < 86400), if_neg (by omega : ¬ s < 604800)]
  · unfold get_relative_time
    rw [if_neg (by decide : ¬ (2700 : Int) < 60), if_pos (by decide : (2700 : Int) < 3600)]
    simp only []
    rw [if_pos (by decide : ((2700 : Int) / 60).toNat > 1)]
    decide
  · unfold get_relative_time
    rw [if_neg (by decide : ¬ (60 : Int) < 60), if_pos (by decide : (60 : Int) < 3600)]
    simp only []
    rw [if_neg (by decide : ¬ ((60 : Int) / 60).toNat > 1)]

/-- C6 witness: 45 minutes yield exactly `45m ago`, and two hours
(with its two bucket bounds discharged) yield `2h ago`. -/
theorem relative_time_buckets_witness :
    get_relative_time ⟨2024, 1, 15, 10, 30, 0⟩ 2700 = "45m ago".toList ∧
      get_relative_time ⟨2024, 1, 15, 10, 30, 0⟩ 7200 = "2h ago".toList := by
  constructor
  · exact (relative_time_buckets ⟨2024, 1, 15, 10, 30, 0⟩ 2700).2.2.2.2.2.1
  · have h := (relative_time_buckets ⟨2024, 1, 15, 10, 30, 0⟩ 7200).2.2.1
      (by decide) (by decide)
    rw [h]
    decide

/-- C7: the canonical post URL is
`https://bsky.app/profile/<handle>/post/<shortID>` — where the short id
is the final `/`-separated segment of the URI — exactly when the short
id is non-empty and the handle is known (not the `"Unknown"`
placeholder in the CLI variant, non-empty in the web variant), and the
empty string otherwise; the spec's example URI with handle
`alice.bsky.social` yields the stated URL. -/
theorem post_url_construction (handle uri : List Char) :
    (¬ (post_id_of_uri uri).isEmpty ∧ handle ≠ "Unknown".toList →
        post_url_report handle uri =
          "https://bsky.app/profile/".toList ++ handle ++
            ("/post/".toList ++ post_id_of_uri uri)) ∧
      ((post_id_of_uri uri).isEmpty ∨ handle = "Unknown".toList →
        post_url_report handle uri = []) ∧
      (¬ (post_id_of_uri uri).isEmpty ∧ ¬ handle.isEmpty →
        post_url_app handle uri =
          "https://bsky.app/profile/".toList ++ handle ++
            ("/post/".toList ++ post_id_of_uri uri)) ∧
      ((post_id_of_uri uri).isEmpty ∨ handle.isEmpty →
        post_url_app handle uri = []) ∧
      post_url_app ("alice.bsky.social".toList)
          ("at://did:plc:abc/app.bsky.feed.post/xyz123".toList) =
        "https://bsky.app/profile/alice.bsky.social/post/xyz123".toList := by
  refine ⟨?_, ?_, ?_, ?_, by decide⟩
  · intro h
    unfold post_url_report
    rw [if_pos h]
  · intro h
    unfold post_url_report
    rw [if_neg]
    intro hcon
    rcases h with h | h
    · exact hcon.1 h
    · exact hcon.2 h
  · intro h
    unfold post_url_app
    rw [if_pos h]
  · intro h
    unfold post_url_app
    rw [if_neg]
    intro hcon
    rcases h with h | h
    · exact hcon.1 h
    · exact hcon.2 h

/-- C7 witness: the `"Unknown"` handle suppresses the URL, and the
spec's example produces the stated URL. -/
theorem post_url_construction_witness :
    post_url_report ("Unknown".toList) ("at://x/y".toList) = [] ∧
      post_url_report ("alice.bsky.social".toList)
          ("at://did:plc:abc/app.bsky.feed.post/xyz123".toList) =
        "https://bsky.app/profile/alice.bsky.social/post/xyz123".toList := by
  constructor
  · exact (post_url_construction ("Unknown".toList) ("at://x/y".toList)).2.1 (Or.inr rfl)
  · have h := (post_url_construction ("alice.bsky.social".toList)
      ("at://did:plc:abc/app.bsky.feed.post/xyz123".toList)).1 (by decide)
    rw [h]
    decide

/-- C8 counterexample: for the empty summary list `_generate_csv`
returns the empty string, which contains no header row (the header row
itself is non-empty) — contradicting the claim's "including the empty
list". -/
theorem csv_empty_no_header :
    generate_csv ([] : List PostSummary) = [] ∧
      csvRow (csvFieldnames.map csvField) ≠ ([] : List Char) := ⟨rfl, by decide⟩

/-- C8 amended: for every non-empty list of summaries the CSV output
starts with the header row in the fixed column order `handle,
post_date, post_url, first_line, likes, reposts, replies, quotes, uri`
followed by one row per summary (so no column exists for the full text
or the relative date); the empty list instead yields the empty
string. -/
theorem csv_header_and_columns (summaries : List PostSummary)
    (h : ¬ summaries.isEmpty) :
    generate_csv summaries =
      "handle,post_date,post_url,first_line,likes,reposts,replies,quotes,uri\r\n".toList ++
        (summaries.map summaryRow).flatten := by
  unfold generate_csv
  rw [if_neg h]
  congr 1

/-- C8 witness: a one-summary report evaluates to the header row plus
the summary's nine-field row. -/
theorem csv_header_and_columns_witness :
    generate_csv [⟨"a".toList, "d".toList, "u".toList, "f".toList, 1, 2, 3, 4, "x".toList⟩] =
      ("handle,post_date,post_url,first_line,likes,reposts,replies,quotes,uri\r\n" ++
        "a,d,u,f,1,2,3,4,x\r\n").toList := by
  rw [csv_header_and_columns
    [⟨"a".toList, "d".toList, "u".toList, "f".toList, 1, 2, 3, 4, "x".toList⟩]
    (by decide)]
  decide

/-- C9: a report over zero summaries yields the empty string as CSV,
while the JSON report object still carries `posts` bound to the empty
array and `post_count` bound to 0 (the structure is present, not
omitted). -/
theorem empty_report_structure (did handle generated_at : List Char) :
    generate_csv ([] : List PostSummary) = [] ∧
      ("posts".toList, JValue.arr []) ∈ report_fields did handle generated_at [] ∧
      ("post_count".toList, JValue.num 0) ∈ report_fields did handle generated_at [] := by
  refine ⟨rfl, ?_, ?_⟩ <;> simp [report_fields]

end Bluesky
